import Mathlib

/-!
Verification of the optimization core of the logistics toolkit
(src/logistics_optimization/src/optimization/optimizer.py and
src/logistics_optimization/src/optimization/route_optimizer.py).

The Python code is shallowly embedded: solver-reported variable values are
rationals (the solver may also report no value at all, modelled as an
Option), coordinates and distances are reals, and the imperative extraction
loops are modelled as fuel-indexed recursive functions where a result of
none means the loop has not terminated within the given fuel.
-/

/-- Solver status enumeration, mirroring pulp.LpStatus values. -/
inductive LpStat where
  | optimal
  | infeasible
  | unbounded
  | undefined
  | notSolved
deriving DecidableEq, Repr

namespace LogisticsOptimizer

/-- The arc-selection test of LogisticsOptimizer.optimize_routes, line 111:
x[current, j, k].value() == 1.  A solver that found no solution reports the
value None, and None == 1 is False in Python. -/
def valueIsOne : Option ℚ → Bool
  | none => false
  | some q => decide (q = 1)

/-- The inner scan of the extraction loop (optimizer.py lines 110-114):
the first j in range(n_locations) with j != current whose variable value
equals 1. -/
def vrp_find_next (v : ℕ → ℕ → Option ℚ) (n current : ℕ) : Option ℕ :=
  (List.range n).find? (fun j => decide (j ≠ current) && valueIsOne (v current j))

/-- The while-loop of the per-vehicle extraction (optimizer.py lines
106-119): append the current node, follow the selected arc, stop when no
arc is selected or the depot (index 0) is reached.  The fuel argument
bounds the number of iterations; none means the loop has not terminated
within the given fuel. -/
def vrp_walk (v : ℕ → ℕ → Option ℚ) (n : ℕ) : ℕ → ℕ → Option (List ℕ)
  | 0, _ => none
  | fuel + 1, current =>
    match vrp_find_next v n current with
    | none => some [current]
    | some j =>
      if j = 0 then some [current]
      else
        match vrp_walk v n fuel j with
        | none => none
        | some l => some (current :: l)

/-- The route list built by optimize_routes (lines 102-122): one walk from
the depot per vehicle, keeping only routes of length greater than 2.  Fuel
n + 1 is enough for every walk that terminates without revisiting a
non-depot node; a vehicle whose walk exceeds the fuel contributes nothing
(on such inputs the Python loop would not terminate at all). -/
def vrp_routes (v : ℕ → ℕ → ℕ → Option ℚ) (n K : ℕ) : List (List ℕ) :=
  (List.range K).filterMap fun k =>
    (vrp_walk (fun i j => v i j k) n (n + 1) 0).bind fun l =>
      if 2 < l.length then some l else none

/-- The record returned by optimize_routes (lines 124-129), restricted to
the fields the verified claims mention (routes and solver status). -/
structure VRPOut where
  routes : List (List ℕ)
  status : LpStat
deriving Repr

/-- The post-solve tail of optimize_routes: the extraction runs whatever
the solver status is, and the status is returned as data in the result
dictionary; no exception is raised on this path. -/
def optimize_routes (n K : ℕ) (status : LpStat) (v : ℕ → ℕ → ℕ → Option ℚ) : VRPOut :=
  { routes := vrp_routes v n K, status := status }

/-- Number of times a location index j occurs across a list of routes. -/
def countAppear (j : ℕ) (rs : List (List ℕ)) : ℕ :=
  (rs.map fun r => r.count j).sum

/-- Constraint of optimizer.py lines 62-66: each non-depot location is
visited exactly once, summed over all in-arcs and all vehicles. -/
def visit_once (y : ℕ → ℕ → ℕ → ℚ) (n K : ℕ) : Prop :=
  ∀ j ∈ Finset.range n, 0 < j →
    Finset.sum (Finset.range K) (fun k =>
      Finset.sum (Finset.range n) (fun i => if i ≠ j then y i j k else 0)) = 1

/-- Constraint of optimizer.py lines 68-73: per vehicle, at most one arc
out of the depot and at most one arc into the depot. -/
def depot_degree (y : ℕ → ℕ → ℕ → ℚ) (n K : ℕ) : Prop :=
  ∀ k ∈ Finset.range K,
    Finset.sum (Finset.Ico 1 n) (fun j => y 0 j k) ≤ 1 ∧
    Finset.sum (Finset.Ico 1 n) (fun i => y i 0 k) ≤ 1

/-- Constraint of optimizer.py lines 75-79: flow conservation per vehicle
and per location. -/
def flow_conservation (y : ℕ → ℕ → ℕ → ℚ) (n K : ℕ) : Prop :=
  ∀ k ∈ Finset.range K, ∀ j ∈ Finset.range n,
    Finset.sum (Finset.range n) (fun i => if i ≠ j then y i j k else 0) =
    Finset.sum (Finset.range n) (fun i => if i ≠ j then y j i k else 0)

/-- Constraint of optimizer.py lines 81-86: per-vehicle capacity. -/
def capacity_le (y : ℕ → ℕ → ℕ → ℚ) (n K : ℕ) (demands : ℕ → ℚ) (cap : ℚ) : Prop :=
  ∀ k ∈ Finset.range K,
    Finset.sum (Finset.range n) (fun i =>
      Finset.sum (Finset.Ico 1 n) (fun j => demands j * y i j k)) ≤ cap

/-- Constraint of optimizer.py lines 88-93: per-vehicle maximum distance. -/
def distance_le (y : ℕ → ℕ → ℕ → ℚ) (n K : ℕ) (dmat : ℕ → ℕ → ℚ) (maxd : ℚ) : Prop :=
  ∀ k ∈ Finset.range K,
    Finset.sum (Finset.range n) (fun i =>
      Finset.sum (Finset.range n) (fun j => dmat i j * y i j k)) ≤ maxd

/-- A 0/1 assignment of the binary decision variables. -/
def BinarySolution (y : ℕ → ℕ → ℕ → ℚ) (n K : ℕ) : Prop :=
  ∀ i ∈ Finset.range n, ∀ j ∈ Finset.range n, ∀ k ∈ Finset.range K,
    y i j k = 0 ∨ y i j k = 1

/-- A feasible solution of the VRP model built by optimize_routes. -/
def FeasibleVRP (y : ℕ → ℕ → ℕ → ℚ) (n K : ℕ) (demands : ℕ → ℚ)
    (dmat : ℕ → ℕ → ℚ) (cap maxd : ℚ) : Prop :=
  visit_once y n K ∧ depot_degree y n K ∧ flow_conservation y n K ∧
  capacity_le y n K demands cap ∧ distance_le y n K dmat maxd

instance (y : ℕ → ℕ → ℕ → ℚ) (n K : ℕ) : Decidable (visit_once y n K) := by
  unfold visit_once; infer_instance

instance (y : ℕ → ℕ → ℕ → ℚ) (n K : ℕ) : Decidable (depot_degree y n K) := by
  unfold depot_degree; infer_instance

instance (y : ℕ → ℕ → ℕ → ℚ) (n K : ℕ) : Decidable (flow_conservation y n K) := by
  unfold flow_conservation; infer_instance

instance (y : ℕ → ℕ → ℕ → ℚ) (n K : ℕ) (demands : ℕ → ℚ) (cap : ℚ) :
    Decidable (capacity_le y n K demands cap) := by
  unfold capacity_le; infer_instance

instance (y : ℕ → ℕ → ℕ → ℚ) (n K : ℕ) (dmat : ℕ → ℕ → ℚ) (maxd : ℚ) :
    Decidable (distance_le y n K dmat maxd) := by
  unfold distance_le; infer_instance

instance (y : ℕ → ℕ → ℕ → ℚ) (n K : ℕ) : Decidable (BinarySolution y n K) := by
  unfold BinarySolution; infer_instance

instance (y : ℕ → ℕ → ℕ → ℚ) (n K : ℕ) (demands : ℕ → ℚ)
    (dmat : ℕ → ℕ → ℚ) (cap maxd : ℚ) :
    Decidable (FeasibleVRP y n K demands dmat cap maxd) := by
  unfold FeasibleVRP; infer_instance

/-- Each non-depot location has at most one selected incoming arc (the
property of a single vehicle's arc set that makes the extraction walk
terminate). -/
def InDegLeOne (v : ℕ → ℕ → Option ℚ) (n : ℕ) : Prop :=
  ∀ j ∈ Finset.range n, j ≠ 0 →
    ∀ i ∈ Finset.range n, ∀ i' ∈ Finset.range n,
      i ≠ j → i' ≠ j →
      valueIsOne (v i j) = true → valueIsOne (v i' j) = true → i = i'

instance (v : ℕ → ℕ → Option ℚ) (n : ℕ) : Decidable (InDegLeOne v n) := by
  unfold InDegLeOne; infer_instance

/-- The per-vehicle extraction walk runs out of any amount of fuel: the
Python while-loop does not terminate on this input. -/
def vrpWalkDiverges (v : ℕ → ℕ → Option ℚ) (n start : ℕ) : Prop :=
  ∀ fuel, vrp_walk v n fuel start = none

/-- np.mean of a list of samples. -/
noncomputable def npMean (l : List ℝ) : ℝ := l.sum / l.length

/-- np.std of a list of samples (population standard deviation, the numpy
default ddof = 0). -/
noncomputable def npStd (l : List ℝ) : ℝ :=
  Real.sqrt ((l.map fun v => (v - npMean l) ^ 2).sum / l.length)

/-- The dictionary returned by optimize_inventory (lines 178-190), with
the nested metrics entries flattened into fields. -/
structure InventoryResult where
  reorder_point : ℝ
  safety_stock : ℝ
  economic_order_quantity : ℝ
  expected_total_cost : ℝ
  service_level : ℝ
  demand_mean : ℝ
  demand_std : ℝ
  expected_holding_cost : ℝ
  expected_stockout_cost : ℝ

/-- LogisticsOptimizer.optimize_inventory (lines 135-190).  The scipy
routines stats.norm.ppf (inverse standard normal CDF) and stats.norm.pdf
(standard normal density) are black-box numerical library functions and are
passed as the parameters ppf and pdf.  The body performs no input
validation: it computes the policy directly from the formulas. -/
noncomputable def optimize_inventory (ppf pdf : ℝ → ℝ) (historical_demand : List ℝ)
    (lead_time holding_cost stockout_cost : ℝ) : InventoryResult :=
  let demand_mean := npMean historical_demand
  let demand_std := npStd historical_demand
  let critical_ratio := stockout_cost / (holding_cost + stockout_cost)
  let z_score := ppf critical_ratio
  let safety_stock := z_score * demand_std * Real.sqrt lead_time
  let reorder_point := demand_mean * lead_time + safety_stock
  let order_cost := stockout_cost * 10
  let annual_demand := demand_mean * 365
  let eoq := Real.sqrt ((2 * annual_demand * order_cost) / holding_cost)
  let expected_holding_cost := holding_cost * safety_stock
  let expected_stockout_cost := stockout_cost * demand_std * pdf z_score
  let total_cost := expected_holding_cost + expected_stockout_cost
  { reorder_point := reorder_point
    safety_stock := safety_stock
    economic_order_quantity := eoq
    expected_total_cost := total_cost
    service_level := critical_ratio
    demand_mean := demand_mean
    demand_std := demand_std
    expected_holding_cost := expected_holding_cost
    expected_stockout_cost := expected_stockout_cost }

/-- A delivery task (optimize_delivery_schedule input): the fields the
code reads are id, duration and priority. -/
structure SchedTask where
  id : ℕ
  duration : ℕ
  priority : ℕ
deriving DecidableEq, Repr

/-- A resource (vehicle or driver); the code reads only its id. -/
structure SchedResource where
  id : ℕ
deriving DecidableEq, Repr

/-- A schedule record produced by the extraction loop of
optimize_delivery_schedule (lines 264-269). -/
structure SchedRec where
  task_id : ℕ
  resource_id : ℕ
  start_time : ℕ
  duration : ℕ
deriving DecidableEq, Repr

/-- n_time_slots = max(tw[1] for tw in time_windows), line 217. -/
def n_time_slots (time_windows : List (ℕ × ℕ)) : ℕ :=
  (time_windows.map Prod.snd).foldr max 0

/-- The extraction triple loop of optimize_delivery_schedule (lines
260-270): scan every (task, resource, slot) triple in index order and
emit a record whenever the variable value equals 1. -/
def extract_schedule (tasks : List SchedTask) (resources : List SchedResource)
    (nS : ℕ) (v : ℕ → ℕ → ℕ → Option ℚ) : List SchedRec :=
  (List.range tasks.length).flatMap fun i =>
    (List.range resources.length).flatMap fun j =>
      (List.range nS).filterMap fun t =>
        if valueIsOne (v i j t) then
          some { task_id := (tasks.getD i ⟨0, 0, 0⟩).id
                 resource_id := (resources.getD j ⟨0⟩).id
                 start_time := t
                 duration := (tasks.getD i ⟨0, 0, 0⟩).duration }
        else none

/-- Constraint of optimizer.py lines 234-238: each task assigned exactly
once. -/
def task_once (z : ℕ → ℕ → ℕ → ℚ) (nT nR nS : ℕ) : Prop :=
  ∀ i ∈ Finset.range nT,
    Finset.sum (Finset.range nR) (fun j =>
      Finset.sum (Finset.range nS) (fun t => z i j t)) = 1

/-- Constraint of optimizer.py lines 240-243: at most one task starts on a
given resource at a given slot. -/
def resource_capacity (z : ℕ → ℕ → ℕ → ℚ) (nT nR nS : ℕ) : Prop :=
  ∀ j ∈ Finset.range nR, ∀ t ∈ Finset.range nS,
    Finset.sum (Finset.range nT) (fun i => z i j t) ≤ 1

/-- Constraint of optimizer.py lines 245-251: per task and per time
window, the assignment mass inside the window is at most one. -/
def window_cap (z : ℕ → ℕ → ℕ → ℚ) (nT nR : ℕ) (time_windows : List (ℕ × ℕ)) : Prop :=
  ∀ i ∈ Finset.range nT, ∀ tw ∈ time_windows,
    Finset.sum (Finset.range nR) (fun j =>
      Finset.sum (Finset.Ico tw.1 tw.2) (fun t => z i j t)) ≤ 1

/-- A 0/1 assignment of the scheduling decision variables. -/
def BinarySched (z : ℕ → ℕ → ℕ → ℚ) (nT nR nS : ℕ) : Prop :=
  ∀ i ∈ Finset.range nT, ∀ j ∈ Finset.range nR, ∀ t ∈ Finset.range nS,
    z i j t = 0 ∨ z i j t = 1

/-- A feasible solution of the scheduling model built by
optimize_delivery_schedule. -/
def FeasibleSchedule (z : ℕ → ℕ → ℕ → ℚ) (nT nR : ℕ)
    (time_windows : List (ℕ × ℕ)) : Prop :=
  task_once z nT nR (n_time_slots time_windows) ∧
  resource_capacity z nT nR (n_time_slots time_windows) ∧
  window_cap z nT nR time_windows

instance (z : ℕ → ℕ → ℕ → ℚ) (nT nR nS : ℕ) : Decidable (task_once z nT nR nS) := by
  unfold task_once; infer_instance

instance (z : ℕ → ℕ → ℕ → ℚ) (nT nR nS : ℕ) : Decidable (resource_capacity z nT nR nS) := by
  unfold resource_capacity; infer_instance

instance (z : ℕ → ℕ → ℕ → ℚ) (nT nR : ℕ) (time_windows : List (ℕ × ℕ)) :
    Decidable (window_cap z nT nR time_windows) := by
  unfold window_cap; infer_instance

instance (z : ℕ → ℕ → ℕ → ℚ) (nT nR nS : ℕ) : Decidable (BinarySched z nT nR nS) := by
  unfold BinarySched; infer_instance

instance (z : ℕ → ℕ → ℕ → ℚ) (nT nR : ℕ) (time_windows : List (ℕ × ℕ)) :
    Decidable (FeasibleSchedule z nT nR time_windows) := by
  unfold FeasibleSchedule; infer_instance

/-- A task with duration d starting at slot t occupies slots t through
t + d - 1 (the occupancy notion used by the schedule claims). -/
def occupies (r : SchedRec) (slot : ℕ) : Prop :=
  r.start_time ≤ slot ∧ slot < r.start_time + r.duration

instance (r : SchedRec) (slot : ℕ) : Decidable (occupies r slot) := by
  unfold occupies; infer_instance

end LogisticsOptimizer

namespace RouteOptimizer

/-- Euclidean distance between the coordinates of entries i and j of the
location list (route_optimizer.py lines 30-33). -/
noncomputable def eudist (locs : List (ℝ × ℝ)) (i j : ℕ) : ℝ :=
  Real.sqrt (((locs.getD i (0, 0)).1 - (locs.getD j (0, 0)).1) ^ 2 +
             ((locs.getD i (0, 0)).2 - (locs.getD j (0, 0)).2) ^ 2)

/-- RouteOptimizer.calculate_distances (lines 15-37): the matrix starts as
zeros and for every i < j both (i, j) and (j, i) are set to the Euclidean
distance, so entry (i, j) is the distance computed at (min i j, max i j)
and the diagonal stays zero. -/
noncomputable def calculate_distances (locs : List (ℝ × ℝ)) (i j : ℕ) : ℝ :=
  if i < j then eudist locs i j
  else if j < i then eudist locs j i
  else 0

/-- The arc-selection test of RouteOptimizer._extract_routes, line 124:
value(x[current, j]) > 0.5. -/
def chainArcSelected (q : ℚ) : Bool :=
  decide ((1 : ℚ) / 2 < q)

/-- Sum of the distance matrix over the consecutive index pairs of a route
(the loop of _calculate_route_distance, lines 155-157).  Polymorphic in
the numeric type of the matrix entries; the claims instantiate it at ℝ. -/
def routeDistSum {α : Type} [Add α] [OfNat α 0] (d : ℕ → ℕ → α) : List ℕ → α
  | [] => 0
  | [_] => 0
  | a :: b :: rest => d a b + routeDistSum d (b :: rest)

/-- RouteOptimizer._calculate_route_distance (lines 150-158): if the object
has no distances attribute the function returns 0.0, otherwise it sums the
matrix entries over consecutive route pairs. -/
def calculate_route_distance {α : Type} [Add α] [OfNat α 0]
    (distancesAttr : Option (ℕ → ℕ → α)) (route : List ℕ) : α :=
  match distancesAttr with
  | none => 0
  | some d => routeDistSum d route

/-- RouteOptimizer.__init__ sets only solver and last_solution; the
distances attribute is absent (and optimize never sets it either: it binds
the matrix to a local variable). -/
def initDistancesAttr : Option (ℕ → ℕ → ℝ) := none

/-- A route record of _extract_routes: ordered index list plus the
distance reported with it. -/
structure RouteRec (α : Type) where
  route : List ℕ
  distance : α

/-- The while-loop of _extract_routes (lines 116-148).  State: the
unvisited set (initially range(1, n)), the current in-progress route and the
current node.  Each iteration restarts at the depot when the in-progress route
is empty, then follows the first arc with value above 0.5 into an
unvisited node; when no such arc exists the in-progress route is emitted if it
has length above 1.  After the loop the remaining in-progress route is emitted
under the same length condition.  Fuel bounds the iteration count; none
means the loop has not terminated within the given fuel. -/
def extract_routes_loop {α : Type} [Add α] [OfNat α 0]
    (distancesAttr : Option (ℕ → ℕ → α)) (y : ℕ → ℕ → ℚ)
    (n : ℕ) : ℕ → List ℕ → List ℕ → ℕ → Option (List (RouteRec α))
  | 0, _, _, _ => none
  | fuel + 1, unvisited, croute, current =>
    if unvisited.isEmpty then
      some (if 1 < croute.length then [⟨croute, calculate_route_distance distancesAttr croute⟩] else [])
    else
      let cur := if croute.isEmpty then 0 else current
      let rt := if croute.isEmpty then [0] else croute
      match (List.range n).find? (fun j => unvisited.contains j && chainArcSelected (y cur j)) with
      | none =>
        if 1 < rt.length then
          (extract_routes_loop distancesAttr y n fuel unvisited [] cur).map
            (fun rest => ⟨rt, calculate_route_distance distancesAttr rt⟩ :: rest)
        else
          extract_routes_loop distancesAttr y n fuel unvisited [] cur
      | some j =>
        extract_routes_loop distancesAttr y n fuel (unvisited.erase j) (rt ++ [j]) j

/-- RouteOptimizer._extract_routes (lines 110-148): run the loop starting
with unvisited = set(range(1, n_locations)), an empty in-progress route and
the depot as current node. -/
def extract_routes {α : Type} [Add α] [OfNat α 0]
    (distancesAttr : Option (ℕ → ℕ → α)) (y : ℕ → ℕ → ℚ)
    (n fuel : ℕ) : Option (List (RouteRec α)) :=
  extract_routes_loop distancesAttr y n fuel ((List.range n).drop 1) [] 0

/-- The loop of _extract_routes runs out of any amount of fuel from the
given state: the Python while-loop does not terminate. -/
def chainLoopDiverges {α : Type} [Add α] [OfNat α 0]
    (distancesAttr : Option (ℕ → ℕ → α)) (y : ℕ → ℕ → ℚ)
    (n : ℕ) (unvisited croute : List ℕ) (current : ℕ) : Prop :=
  ∀ fuel, extract_routes_loop distancesAttr y n fuel unvisited croute current = none

/-- The exceptions that the body of RouteOptimizer.optimize can raise:
ValueError("No locations provided") on an empty location list (line 52)
and Exception("Could not find optimal solution") on a non-optimal solver
status (line 98). -/
inductive PyErr where
  | valueError
  | exception
deriving DecidableEq, Repr

/-- The try-block of RouteOptimizer.optimize (lines 50-104): raise on an
empty location list, build and solve the problem (the solver outcome is
the status and value parameters), raise on a non-optimal status, otherwise
extract the routes. -/
def optimize_body {α : Type} [Add α] [OfNat α 0]
    (distancesAttr : Option (ℕ → ℕ → α)) (locs : List (ℝ × ℝ))
    (status : LpStat) (y : ℕ → ℕ → ℚ) (fuel : ℕ) :
    Except PyErr (Option (List (RouteRec α))) :=
  if locs.isEmpty then .error .valueError
  else if status ≠ .optimal then .error .exception
  else .ok (extract_routes distancesAttr y locs.length fuel)

/-- RouteOptimizer.optimize (lines 39-108): the whole body is wrapped in
try/except, and the except branch logs and returns an empty list, so every
exception raised inside is converted into the normal return value []. -/
def optimize {α : Type} [Add α] [OfNat α 0]
    (distancesAttr : Option (ℕ → ℕ → α)) (locs : List (ℝ × ℝ))
    (status : LpStat) (y : ℕ → ℕ → ℚ) (fuel : ℕ) : Option (List (RouteRec α)) :=
  match optimize_body distancesAttr locs status y fuel with
  | .error _ => some []
  | .ok r => r

end RouteOptimizer

namespace LogisticsOptimizer

lemma valueIsOne_some {q : ℚ} : valueIsOne (some q) = true ↔ q = 1 := by
  simp [valueIsOne]

lemma vrp_find_next_some {v : ℕ → ℕ → Option ℚ} {n c j : ℕ}
    (h : vrp_find_next v n c = some j) :
    j < n ∧ j ≠ c ∧ valueIsOne (v c j) = true := by
  unfold vrp_find_next at h
  have hmem := List.mem_of_find?_eq_some h
  have hp := List.find?_some h
  rw [List.mem_range] at hmem
  simp only [Bool.and_eq_true, decide_eq_true_eq] at hp
  exact ⟨hmem, hp.1, hp.2⟩

/-- Main invariant of the per-vehicle extraction walk.  V is the set of
nodes visited strictly before the current one; every visited non-depot
node already has its (unique) selected predecessor inside V, so the walk
can never return to a visited node and must stop within n steps. -/
lemma vrp_walk_invariant (v : ℕ → ℕ → Option ℚ) (n : ℕ)
    (hdeg : InDegLeOne v n) :
    ∀ (fuel : ℕ) (V : Finset ℕ) (c : ℕ), c < n → c ∉ V → V ⊆ Finset.range n →
    (∀ w ∈ insert c V, w ≠ 0 → ∃ p ∈ V, p ≠ w ∧ valueIsOne (v p w) = true) →
    n ≤ V.card + fuel →
    ∃ l, vrp_walk v n fuel c = some l ∧ l ≠ [] ∧ l.head? = some c ∧ l.Nodup ∧
      (∀ w ∈ l, w < n ∧ w ∉ V) ∧
      (∀ w ∈ l, w ≠ c → ∃ p, p < n ∧ p ≠ w ∧ valueIsOne (v p w) = true) := by
  intro fuel
  induction fuel with
  | zero =>
    intro V c hc hcV hVr _ hcard
    exfalso
    have hsub : insert c V ⊆ Finset.range n :=
      Finset.insert_subset (Finset.mem_range.mpr hc) hVr
    have hle : (insert c V).card ≤ n := by
      simpa [Finset.card_range] using Finset.card_le_card hsub
    rw [Finset.card_insert_of_not_mem hcV] at hle
    omega
  | succ fuel ih =>
    intro V c hc hcV hVr hpred hcard
    cases hfind : vrp_find_next v n c with
    | none =>
      refine ⟨[c], ?_, by simp, by simp, by simp, ?_, ?_⟩
      · simp [vrp_walk, hfind]
      · intro w hw
        rw [List.mem_singleton] at hw
        exact hw ▸ ⟨hc, hcV⟩
      · intro w hw hwc
        rw [List.mem_singleton] at hw
        exact absurd hw hwc
    | some j =>
      obtain ⟨hjn, hjc, hsel⟩ := vrp_find_next_some hfind
      by_cases hj0 : j = 0
      · refine ⟨[c], ?_, by simp, by simp, by simp, ?_, ?_⟩
        · simp [vrp_walk, hfind, hj0]
        · intro w hw
          rw [List.mem_singleton] at hw
          exact hw ▸ ⟨hc, hcV⟩
        · intro w hw hwc
          rw [List.mem_singleton] at hw
          exact absurd hw hwc
      · have hjV : j ∉ insert c V := by
          intro hjin
          obtain ⟨p, hpV, hpj, hpsel⟩ := hpred j hjin hj0
          have hpc : p = c :=
            hdeg j (Finset.mem_range.mpr hjn) hj0 p (hVr hpV) c
              (Finset.mem_range.mpr hc) hpj (Ne.symm hjc) hpsel hsel
          exact hcV (hpc ▸ hpV)
        have hnew_pred : ∀ w ∈ insert j (insert c V), w ≠ 0 →
            ∃ p ∈ insert c V, p ≠ w ∧ valueIsOne (v p w) = true := by
          intro w hw hw0
          rcases Finset.mem_insert.mp hw with hwj | hwV
          · exact ⟨c, Finset.mem_insert_self c V, by
              rw [hwj]; exact Ne.symm hjc, by rw [hwj]; exact hsel⟩
          · obtain ⟨p, hpV, hpw, hpsel⟩ := hpred w hwV hw0
            exact ⟨p, Finset.mem_insert_of_mem hpV, hpw, hpsel⟩
        have hcard' : n ≤ (insert c V).card + fuel := by
          rw [Finset.card_insert_of_not_mem hcV]; omega
        obtain ⟨l, hl, hlne, hlhead, hlnd, hlmem, hlpred⟩ :=
          ih (insert c V) j hjn hjV
            (Finset.insert_subset (Finset.mem_range.mpr hc) hVr)
            hnew_pred hcard'
        refine ⟨c :: l, ?_, by simp, by simp, ?_, ?_, ?_⟩
        · simp [vrp_walk, hfind, hj0, hl]
        · rw [List.nodup_cons]
          exact ⟨fun hcl => (hlmem c hcl).2 (Finset.mem_insert_self c V), hlnd⟩
        · intro w hw
          rcases List.mem_cons.mp hw with hwc | hwl
          · exact hwc ▸ ⟨hc, hcV⟩
          · have := hlmem w hwl
            exact ⟨this.1, fun hwV => this.2 (Finset.mem_insert_of_mem hwV)⟩
        · intro w hw hwc
          rcases List.mem_cons.mp hw with hwc' | hwl
          · exact absurd hwc' hwc
          · by_cases hwj : w = j
            · exact ⟨c, hc, by rw [hwj]; exact Ne.symm hjc, by rw [hwj]; exact hsel⟩
            · exact hlpred w hwl hwj

/-- Specialized form of the walk invariant: under the in-degree bound the
walk from the depot with fuel n + 1 terminates, and the route it returns
starts at 0, has no duplicates, stays inside the index range and gives
every non-depot member a selected incoming arc. -/
lemma vrp_walk_spec (v : ℕ → ℕ → Option ℚ) (n : ℕ)
    (hdeg : InDegLeOne v n) (hn : 0 < n) :
    ∃ l, vrp_walk v n (n + 1) 0 = some l ∧ l.head? = some 0 ∧ l.Nodup ∧
      (∀ w ∈ l, w < n) ∧
      (∀ w ∈ l, w ≠ 0 → ∃ p, p < n ∧ p ≠ w ∧ valueIsOne (v p w) = true) := by
  obtain ⟨l, hl, _, hlhead, hlnd, hlmem, hlpred⟩ :=
    vrp_walk_invariant v n hdeg (n + 1) ∅ 0 hn (Finset.not_mem_empty 0)
      (Finset.empty_subset _)
      (by intro w hw hw0
          exfalso
          rcases Finset.mem_insert.mp hw with h | h
          · exact hw0 h
          · exact Finset.not_mem_empty w h)
      (by simp)
  exact ⟨l, hl, hlhead, hlnd, fun w hw => (hlmem w hw).1, hlpred⟩

/-- Under the in-degree bound, the extraction walk from the depot
terminates within n + 1 iterations. -/
lemma vrp_walk_terminates (v : ℕ → ℕ → Option ℚ) (n : ℕ)
    (hdeg : InDegLeOne v n) : (vrp_walk v n (n + 1) 0).isSome = true := by
  rcases Nat.eq_zero_or_pos n with h0 | hn
  · subst h0
    rfl
  · obtain ⟨l, hl, _⟩ := vrp_walk_spec v n hdeg hn
    rw [hl]
    rfl

end LogisticsOptimizer

namespace LogisticsOptimizer

/-- A binary feasible solution has 0/1 entries, so every summand in the
visit-once constraint is non-negative. -/
lemma binary_nonneg {y : ℕ → ℕ → ℕ → ℚ} {n K : ℕ}
    (hbin : BinarySolution y n K) {i j k : ℕ}
    (hi : i < n) (hj : j < n) (hk : k < K) : 0 ≤ y i j k := by
  rcases hbin i (Finset.mem_range.mpr hi) j (Finset.mem_range.mpr hj) k
      (Finset.mem_range.mpr hk) with h | h <;> simp [h]

/-- From the visit-exactly-once constraint: at most one selected arc (over
all predecessors and all vehicles) enters a given non-depot location. -/
lemma visit_once_unique {y : ℕ → ℕ → ℕ → ℚ} {n K : ℕ}
    (hbin : BinarySolution y n K) (hvisit : visit_once y n K)
    {j i k i' k' : ℕ} (hj : j < n) (hj0 : 0 < j)
    (hi : i < n) (hk : k < K) (hi' : i' < n) (hk' : k' < K)
    (hij : i ≠ j) (hij' : i' ≠ j)
    (h1 : y i j k = 1) (h2 : y i' j k' = 1) : i = i' ∧ k = k' := by
  have hsum := hvisit j (Finset.mem_range.mpr hj) hj0
  set g : ℕ → ℕ → ℚ := fun k'' i'' => if i'' ≠ j then y i'' j k'' else 0 with hg
  have hg_nonneg : ∀ k'' ∈ Finset.range K, ∀ i'' ∈ Finset.range n, 0 ≤ g k'' i'' := by
    intro k'' hk'' i'' hi''
    rw [hg]
    dsimp only
    split
    · exact binary_nonneg hbin (Finset.mem_range.mp hi'') hj (Finset.mem_range.mp hk'')
    · exact le_refl 0
  have hinner_nonneg : ∀ k'' ∈ Finset.range K,
      0 ≤ Finset.sum (Finset.range n) (g k'') := by
    intro k'' hk''
    exact Finset.sum_nonneg (hg_nonneg k'' hk'')
  have hinner_ge : ∀ (kk ii : ℕ), kk < K → ii < n → ii ≠ j → y ii j kk = 1 →
      1 ≤ Finset.sum (Finset.range n) (g kk) := by
    intro kk ii hkk hii hiij hii1
    have : g kk ii = 1 := by rw [hg]; simp [hiij, hii1]
    calc (1 : ℚ) = g kk ii := this.symm
    _ ≤ Finset.sum (Finset.range n) (g kk) :=
        Finset.single_le_sum (hg_nonneg kk (Finset.mem_range.mpr hkk))
          (Finset.mem_range.mpr hii)
  by_contra hcon
  rcases Decidable.em (k = k') with hkk | hkk
  · subst hkk
    have hii : i ≠ i' := fun h => hcon ⟨h, rfl⟩
    have hpair : g k i + g k i' ≤ Finset.sum (Finset.range n) (g k) := by
      have hsub : ({i, i'} : Finset ℕ) ⊆ Finset.range n := by
        intro x hx
        rcases Finset.mem_insert.mp hx with h | h
        · exact h ▸ Finset.mem_range.mpr hi
        · rw [Finset.mem_singleton] at h
          exact h ▸ Finset.mem_range.mpr hi'
      calc g k i + g k i' = Finset.sum ({i, i'} : Finset ℕ) (g k) :=
            (Finset.sum_pair hii).symm
      _ ≤ Finset.sum (Finset.range n) (g k) :=
            Finset.sum_le_sum_of_subset_of_nonneg hsub
              (fun x hx _ => hg_nonneg k (Finset.mem_range.mpr hk) x hx)
    have hgi : g k i = 1 := by rw [hg]; simp [hij, h1]
    have hgi' : g k i' = 1 := by rw [hg]; simp [hij', h2]
    have hone : (1 : ℚ) ≥ Finset.sum (Finset.range n) (g k) := by
      rw [← hsum]
      exact Finset.single_le_sum hinner_nonneg (Finset.mem_range.mpr hk)
    rw [hgi, hgi'] at hpair
    linarith
  · set F : ℕ → ℚ := fun kk => Finset.sum (Finset.range n) (g kk) with hF
    have hpair : F k + F k' ≤ Finset.sum (Finset.range K) F := by
      have hsub : ({k, k'} : Finset ℕ) ⊆ Finset.range K := by
        intro x hx
        rcases Finset.mem_insert.mp hx with h | h
        · exact h ▸ Finset.mem_range.mpr hk
        · rw [Finset.mem_singleton] at h
          exact h ▸ Finset.mem_range.mpr hk'
      calc F k + F k' = Finset.sum ({k, k'} : Finset ℕ) F :=
            (Finset.sum_pair hkk).symm
      _ ≤ Finset.sum (Finset.range K) F :=
            Finset.sum_le_sum_of_subset_of_nonneg hsub
              (fun x hx _ => hinner_nonneg x hx)
    have h1' := hinner_ge k i hk hi hij h1
    have h2' := hinner_ge k' i' hk' hi' hij' h2
    rw [hF] at hpair
    dsimp only at hpair
    rw [hsum] at hpair
    linarith

/-- Vehicle k of a binary feasible solution satisfies the in-degree bound
that makes its extraction walk terminate. -/
lemma feasible_indeg {y : ℕ → ℕ → ℕ → ℚ} {n K : ℕ}
    (hbin : BinarySolution y n K) (hvisit : visit_once y n K)
    {k : ℕ} (hk : k < K) :
    InDegLeOne (fun i j => some (y i j k)) n := by
  intro j hj hj0 i hi i' hi' hij hij' hsel hsel'
  rw [valueIsOne_some] at hsel hsel'
  exact (visit_once_unique hbin hvisit (Finset.mem_range.mp hj)
    (Nat.pos_of_ne_zero hj0) (Finset.mem_range.mp hi) hk
    (Finset.mem_range.mp hi') hk hij hij' hsel hsel').1

/-- Counting occurrences across a filterMap, summand by summand. -/
lemma countAppear_filterMap (j : ℕ) (L : List ℕ) (g : ℕ → Option (List ℕ)) :
    countAppear j (L.filterMap g) =
      (L.map fun k => ((g k).map fun r => r.count j).getD 0).sum := by
  induction L with
  | nil => rfl
  | cons a L ih =>
    cases hga : g a with
    | none => simpa [countAppear, List.filterMap_cons, hga] using ih
    | some r => simpa [countAppear, List.filterMap_cons, hga] using congrArg (r.count j + ·) ih

/-- A sum of naturals, each at most one, at most one of which is positive
(over a duplicate-free index list), is at most one. -/
lemma list_sum_le_one {L : List ℕ} {h : ℕ → ℕ} (hnd : L.Nodup)
    (hle : ∀ a ∈ L, h a ≤ 1)
    (huniq : ∀ a ∈ L, ∀ b ∈ L, 0 < h a → 0 < h b → a = b) :
    (L.map h).sum ≤ 1 := by
  induction L with
  | nil => simp
  | cons a L ih =>
    rw [List.nodup_cons] at hnd
    rw [List.map_cons, List.sum_cons]
    rcases Nat.eq_zero_or_pos (h a) with h0 | hpos
    · rw [h0, Nat.zero_add]
      exact ih hnd.2 (fun b hb => hle b (List.mem_cons_of_mem a hb))
        (fun b hb c hc => huniq b (List.mem_cons_of_mem a hb) c (List.mem_cons_of_mem a hc))
    · have hz : ∀ b ∈ L, h b = 0 := by
        intro b hb
        by_contra hb0
        have hbpos : 0 < h b := Nat.pos_of_ne_zero hb0
        have : a = b := huniq a (List.mem_cons_self a L) b (List.mem_cons_of_mem a hb) hpos hbpos
        exact hnd.1 (this ▸ hb)
      have hsum0 : (L.map h).sum = 0 := by
        apply List.sum_eq_zero
        intro x hx
        rw [List.mem_map] at hx
        obtain ⟨b, hb, hbx⟩ := hx
        rw [← hbx]
        exact hz b hb
      rw [hsum0]
      simpa using hle a (List.mem_cons_self a L)

end LogisticsOptimizer

namespace LogisticsOptimizer

/-- Helper for C1: a location appearing in a kept route of vehicle k has a
selected incoming arc for vehicle k. -/
lemma mem_route_has_pred {y : ℕ → ℕ → ℕ → ℚ} {n K : ℕ}
    (hbin : BinarySolution y n K) (hvisit : visit_once y n K)
    {k : ℕ} (hk : k < K) (hn : 0 < n) {j : ℕ} (hj0 : 0 < j)
    {l : List ℕ} (hl : vrp_walk (fun i j' => some (y i j' k)) n (n + 1) 0 = some l)
    (hjl : j ∈ l) :
    ∃ p, p < n ∧ p ≠ j ∧ y p j k = 1 := by
  obtain ⟨l', hl', _, _, _, hlpred⟩ :=
    vrp_walk_spec _ n (feasible_indeg hbin hvisit hk) hn
  rw [hl] at hl'
  injection hl' with hll
  subst hll
  obtain ⟨p, hp, hpj, hpsel⟩ := hlpred j hjl (Nat.pos_iff_ne_zero.mp hj0)
  rw [valueIsOne_some] at hpsel
  exact ⟨p, hp, hpj, hpsel⟩

end LogisticsOptimizer

namespace RouteOptimizer

/-- Constraint of route_optimizer.py lines 81-83: each non-depot location
is entered exactly once. -/
def chain_visit_once (y : ℕ → ℕ → ℚ) (n : ℕ) : Prop :=
  ∀ j ∈ Finset.range n, 0 < j →
    Finset.sum (Finset.range n) (fun i => if i ≠ j then y i j else 0) = 1

/-- Constraint of route_optimizer.py lines 85-87: each non-depot location
is left exactly once. -/
def chain_leave_once (y : ℕ → ℕ → ℚ) (n : ℕ) : Prop :=
  ∀ i ∈ Finset.range n, 0 < i →
    Finset.sum (Finset.range n) (fun j => if j ≠ i then y i j else 0) = 1

/-- Constraint of route_optimizer.py lines 89-92: flow conservation at
each non-depot location. -/
def chain_flow (y : ℕ → ℕ → ℚ) (n : ℕ) : Prop :=
  ∀ k ∈ Finset.range n, 0 < k →
    Finset.sum (Finset.range n) (fun i => if i ≠ k then y i k else 0) =
    Finset.sum (Finset.range n) (fun j => if j ≠ k then y k j else 0)

/-- A 0/1 assignment of the single-chain decision variables. -/
def chainBinary (y : ℕ → ℕ → ℚ) (n : ℕ) : Prop :=
  ∀ i ∈ Finset.range n, ∀ j ∈ Finset.range n, y i j = 0 ∨ y i j = 1

/-- A feasible solution of the model built by RouteOptimizer.optimize. -/
def FeasibleChain (y : ℕ → ℕ → ℚ) (n : ℕ) : Prop :=
  chain_visit_once y n ∧ chain_leave_once y n ∧ chain_flow y n

instance (y : ℕ → ℕ → ℚ) (n : ℕ) : Decidable (chain_visit_once y n) := by
  unfold chain_visit_once; infer_instance

instance (y : ℕ → ℕ → ℚ) (n : ℕ) : Decidable (chain_leave_once y n) := by
  unfold chain_leave_once; infer_instance

instance (y : ℕ → ℕ → ℚ) (n : ℕ) : Decidable (chain_flow y n) := by
  unfold chain_flow; infer_instance

instance (y : ℕ → ℕ → ℚ) (n : ℕ) : Decidable (chainBinary y n) := by
  unfold chainBinary; infer_instance

instance (y : ℕ → ℕ → ℚ) (n : ℕ) : Decidable (FeasibleChain y n) := by
  unfold FeasibleChain; infer_instance

/-- _extract_routes runs out of any amount of fuel: its while-loop does
not terminate on this solver output. -/
def chainExtractDiverges {α : Type} [Add α] [OfNat α 0]
    (distancesAttr : Option (ℕ → ℕ → α)) (y : ℕ → ℕ → ℚ) (n : ℕ) : Prop :=
  ∀ fuel, extract_routes distancesAttr y n fuel = none

end RouteOptimizer

namespace LogisticsOptimizer

/-- A degenerate numeric assignment for a single vehicle: arcs 0 to 1,
1 to 2 and 2 to 1 all have value 1, so the walk enters the 2-cycle
between nodes 1 and 2 and never leaves it. -/
def yCyc : ℕ → ℕ → Option ℚ := fun i j =>
  some (if (i = 0 ∧ j = 1) ∨ (i = 1 ∧ j = 2) ∨ (i = 2 ∧ j = 1) then 1 else 0)

lemma yCyc_walk_12 : ∀ fuel, vrp_walk yCyc 3 fuel 1 = none ∧ vrp_walk yCyc 3 fuel 2 = none := by
  intro fuel
  induction fuel with
  | zero => exact ⟨rfl, rfl⟩
  | succ fuel ih =>
    refine ⟨?_, ?_⟩
    · have h1 : vrp_find_next yCyc 3 1 = some 2 := by with_unfolding_all decide
      simp [vrp_walk, h1, ih.2]
    · have h2 : vrp_find_next yCyc 3 2 = some 1 := by with_unfolding_all decide
      simp [vrp_walk, h2, ih.1]

lemma yCyc_diverges : vrpWalkDiverges yCyc 3 0 := by
  intro fuel
  cases fuel with
  | zero => rfl
  | succ fuel =>
    have h0 : vrp_find_next yCyc 3 0 = some 1 := by with_unfolding_all decide
    simp [vrp_walk, h0, (yCyc_walk_12 fuel).1]

end LogisticsOptimizer

namespace RouteOptimizer

/-- A binary solution of the single-chain model in which nodes 1 and 2
form a 2-cycle disjoint from the depot. -/
def ySubChain : ℕ → ℕ → ℚ := fun i j =>
  if (i = 1 ∧ j = 2) ∨ (i = 2 ∧ j = 1) then 1 else 0

lemma ySubChain_loop_diverges :
    ∀ fuel, extract_routes_loop (α := ℝ) none ySubChain 3 fuel [1, 2] [] 0 = none := by
  intro fuel
  induction fuel with
  | zero => rfl
  | succ fuel ih =>
    have hfind : (List.range 3).find?
        (fun j => (decide (j = 1) || decide (j = 2)) && chainArcSelected (ySubChain 0 j)) = none := by
      with_unfolding_all decide
    simp [extract_routes_loop, hfind, ih]

lemma ySubChain_diverges : chainExtractDiverges (α := ℝ) none ySubChain 3 := by
  intro fuel
  exact ySubChain_loop_diverges fuel

end RouteOptimizer

section ConcreteInstances

open LogisticsOptimizer RouteOptimizer

/-- Zero demands (every location demands nothing). -/
def demandsZero : ℕ → ℚ := fun _ => 0

/-- Zero distance matrix. -/
def dmatZero : ℕ → ℕ → ℚ := fun _ _ => 0

/-- A binary VRP solution for one vehicle and three locations in which
locations 1 and 2 form a 2-cycle disjoint from the depot. -/
def ySub : ℕ → ℕ → ℕ → ℚ := fun i j _ =>
  if (i = 1 ∧ j = 2) ∨ (i = 2 ∧ j = 1) then 1 else 0

/-- A binary VRP solution for one vehicle and three locations forming the
single tour 0, 1, 2, 0. -/
def yTour : ℕ → ℕ → ℕ → ℚ := fun i j _ =>
  if (i = 0 ∧ j = 1) ∨ (i = 1 ∧ j = 2) ∨ (i = 2 ∧ j = 0) then 1 else 0

/-- The tour solution as a single vehicle's Option-valued arc matrix. -/
def vTour : ℕ → ℕ → Option ℚ := fun i j => some (yTour i j 0)

/-- Two planar locations at Euclidean distance 5. -/
def locsC4 : List (ℝ × ℝ) := [(0, 0), (3, 4)]

/-- A solver solution selecting the single arc from 0 to 1. -/
def yChain1 : ℕ → ℕ → ℚ := fun i j => if i = 0 ∧ j = 1 then 1 else 0

/-- All solver variable values equal to 0.9. -/
def yNine : ℕ → ℕ → ℚ := fun _ _ => (9 : ℚ) / 10

/-- Two delivery tasks: task 0 with duration 2, task 1 with duration 1. -/
def tasksC9 : List SchedTask := [⟨0, 2, 1⟩, ⟨1, 1, 1⟩]

/-- A single resource. -/
def resourcesC9 : List SchedResource := [⟨0⟩]

/-- A single admissible time window covering slots 0 and 1. -/
def windowsC9 : List (ℕ × ℕ) := [(0, 2)]

/-- Schedule assignment: task 0 starts at slot 0, task 1 starts at slot 1,
both on resource 0. -/
def zC9 : ℕ → ℕ → ℕ → ℚ := fun i j t =>
  if (i = 0 ∧ j = 0 ∧ t = 0) ∨ (i = 1 ∧ j = 0 ∧ t = 1) then 1 else 0

end ConcreteInstances

namespace LogisticsOptimizer

lemma vrp_find_next_none_vals (n c : ℕ) :
    vrp_find_next (fun _ _ => none) n c = none := by
  unfold vrp_find_next
  rw [List.find?_eq_none]
  intro x _
  simp [valueIsOne]

lemma vrp_walk_none_vals (n : ℕ) :
    vrp_walk (fun _ _ => none) n (n + 1) 0 = some [0] := by
  simp [vrp_walk, vrp_find_next_none_vals]

/-- When the solver reports no variable values at all (infeasible outcome),
the extraction produces no routes. -/
lemma vrp_routes_none_vals (n K : ℕ) :
    vrp_routes (fun _ _ _ => none) n K = [] := by
  unfold vrp_routes
  rw [List.filterMap_eq_nil_iff]
  intro k _
  rw [show (fun i j => (fun _ _ _ => (none : Option ℚ)) i j k) = fun _ _ => (none : Option ℚ) from rfl]
  rw [vrp_walk_none_vals]
  rfl

end LogisticsOptimizer

namespace LogisticsOptimizer

/-- Two distinct summands of a sum of non-negative rationals bound the
sum from below. -/
lemma qsum_pair_le {f : ℕ → ℚ} {s : Finset ℕ} {a b : ℕ} (hab : a ≠ b)
    (ha : a ∈ s) (hb : b ∈ s) (hnn : ∀ x ∈ s, 0 ≤ f x) :
    f a + f b ≤ Finset.sum s f := by
  calc f a + f b = Finset.sum ({a, b} : Finset ℕ) f := (Finset.sum_pair hab).symm
  _ ≤ Finset.sum s f := by
      apply Finset.sum_le_sum_of_subset_of_nonneg
      · intro x hx
        rcases Finset.mem_insert.mp hx with h | h
        · exact h ▸ ha
        · rw [Finset.mem_singleton] at h
          exact h ▸ hb
      · exact fun x hx _ => hnn x hx

end LogisticsOptimizer

section Claims

open LogisticsOptimizer RouteOptimizer

/-- C10: for every list of locations with numeric coordinates,
calculate_distances is the Euclidean distance formula, is symmetric and
has a zero diagonal, with no error path. -/
theorem C10_thm (locs : List (ℝ × ℝ)) (i j : ℕ)
    (_hi : i < locs.length) (_hj : j < locs.length) :
    calculate_distances locs i j =
      Real.sqrt (((locs.getD i (0, 0)).1 - (locs.getD j (0, 0)).1) ^ 2 +
                 ((locs.getD i (0, 0)).2 - (locs.getD j (0, 0)).2) ^ 2) ∧
    calculate_distances locs i j = calculate_distances locs j i ∧
    calculate_distances locs i i = 0 := by
  refine ⟨?_, ?_, ?_⟩
  · unfold calculate_distances eudist
    rcases lt_trichotomy i j with h | h | h
    · rw [if_pos h]
    · subst h
      simp
    · rw [if_neg (by omega), if_pos h]
      congr 1
      ring
  · unfold calculate_distances
    rcases lt_trichotomy i j with h | h | h
    · rw [if_pos h, if_neg (by omega), if_pos h]
    · subst h
      simp
    · rw [if_neg (by omega), if_pos h, if_pos h]
  · unfold calculate_distances
    simp

/-- C10 witness: the two locations (0,0) and (3,4). -/
theorem C10_witness :
    calculate_distances locsC4 0 1 =
      Real.sqrt (((locsC4.getD 0 (0, 0)).1 - (locsC4.getD 1 (0, 0)).1) ^ 2 +
                 ((locsC4.getD 0 (0, 0)).2 - (locsC4.getD 1 (0, 0)).2) ^ 2) ∧
    calculate_distances locsC4 0 1 = calculate_distances locsC4 1 0 ∧
    calculate_distances locsC4 0 0 = 0 :=
  C10_thm locsC4 0 1 (by norm_num [locsC4]) (by norm_num [locsC4])

/-- C2 counterexample: a solver value of 0.9 is above the 0.5 threshold,
yet the per-vehicle extraction of optimize_routes does not treat the arc
as selected (it tests for equality with 1), while the single-chain
extraction does: on an all-0.9 solution the former extracts nothing and
the latter extracts the route 0, 1. -/
theorem C2_counterexample :
    valueIsOne (some ((9 : ℚ) / 10)) = false ∧
    ((1 : ℚ) / 2 < (9 : ℚ) / 10) ∧
    chainArcSelected ((9 : ℚ) / 10) = true ∧
    vrp_routes (fun _ _ _ => some ((9 : ℚ) / 10)) 2 1 = [] ∧
    extract_routes (α := ℝ) none yNine 2 5 = some [⟨[0, 1], 0⟩] := by
  refine ⟨by with_unfolding_all decide, by norm_num, by with_unfolding_all decide,
    by with_unfolding_all decide, by with_unfolding_all rfl⟩

/-- C2 (amended): the strictly-above-0.5 tolerance is applied only by the
single-chain extraction; the per-vehicle extraction selects an arc iff the
reported value equals 1 exactly, and a missing value (None) is never
selected. -/
theorem C2_thm (q : ℚ) :
    (chainArcSelected q = true ↔ (1 : ℚ) / 2 < q) ∧
    (valueIsOne (some q) = true ↔ q = 1) ∧
    valueIsOne none = false := by
  exact ⟨by simp [chainArcSelected], valueIsOne_some, rfl⟩

/-- C5 counterexample: on an empty location list, the body of
RouteOptimizer.optimize raises ValueError, but the optimize call itself
returns the normal value [] (the blanket except handler converts the
error), so no error propagates to the caller. -/
theorem C5_counterexample :
    optimize_body (α := ℝ) none [] .optimal (fun _ _ => 0) 5 = .error .valueError ∧
    RouteOptimizer.optimize (α := ℝ) none [] .optimal (fun _ _ => 0) 5 = some [] :=
  ⟨rfl, rfl⟩

/-- C5 (amended): an empty location list raises ValueError inside the body
of optimize before any solver object is built, but the surrounding
except-handler catches it and the caller receives the normal return value
[] instead of a propagated exception. -/
theorem C5_thm (dA : Option (ℕ → ℕ → ℝ)) (st : LpStat) (y : ℕ → ℕ → ℚ) (fuel : ℕ) :
    optimize_body dA ([] : List (ℝ × ℝ)) st y fuel = .error .valueError ∧
    RouteOptimizer.optimize dA ([] : List (ℝ × ℝ)) st y fuel = some [] :=
  ⟨rfl, rfl⟩

/-- C6 counterexample: when the solver reports Infeasible, the single-chain
variant raises an internal exception for that outcome (line 98 of
route_optimizer.py) and, after the blanket handler, returns a bare empty
list carrying no status field; the caller cannot distinguish this from the
empty-input failure, which also returns []. -/
theorem C6_counterexample :
    optimize_body (α := ℝ) none locsC4 .infeasible (fun _ _ => 0) 5 = .error .exception ∧
    RouteOptimizer.optimize (α := ℝ) none locsC4 .infeasible (fun _ _ => 0) 5 = some [] ∧
    RouteOptimizer.optimize (α := ℝ) none ([] : List (ℝ × ℝ)) .optimal (fun _ _ => 0) 5 = some [] :=
  ⟨rfl, rfl, rfl⟩

/-- C6 (amended): the multi-vehicle engine returns solver infeasibility as
data (the status field is passed through unchanged and the route list is
empty when the solver reports no values), without raising; the single-chain
variant instead raises internally on every non-optimal status and, after
its blanket handler, returns a bare empty list with no status field. -/
theorem C6_thm :
    (∀ (n K : ℕ) (st : LpStat),
      (optimize_routes n K st (fun _ _ _ => none)).status = st ∧
      (optimize_routes n K st (fun _ _ _ => none)).routes = []) ∧
    (∀ (dA : Option (ℕ → ℕ → ℝ)) (locs : List (ℝ × ℝ)) (st : LpStat)
        (y : ℕ → ℕ → ℚ) (fuel : ℕ), locs ≠ [] → st ≠ .optimal →
      optimize_body dA locs st y fuel = .error .exception ∧
      RouteOptimizer.optimize dA locs st y fuel = some []) := by
  constructor
  · intro n K st
    exact ⟨rfl, vrp_routes_none_vals n K⟩
  · intro dA locs st y fuel hlocs hst
    have hbody : optimize_body dA locs st y fuel = .error .exception := by
      unfold optimize_body
      rw [if_neg (by simpa [List.isEmpty_iff] using hlocs), if_pos hst]
    refine ⟨hbody, ?_⟩
    unfold RouteOptimizer.optimize
    rw [hbody]

/-- C6 witness: a two-location instance with an infeasible solver status. -/
theorem C6_witness :
    optimize_body (α := ℝ) none locsC4 .infeasible yChain1 7 = .error .exception ∧
    RouteOptimizer.optimize (α := ℝ) none locsC4 .infeasible yChain1 7 = some [] :=
  C6_thm.2 none locsC4 .infeasible yChain1 7 (List.cons_ne_nil _ _) (by decide)

/-- C4: the route records of the single-chain variant always report
distance 0 instead of the consecutive-pair sum over the distance matrix:
optimize stores the matrix in a local variable and never sets the
distances attribute read by _calculate_route_distance, whose hasattr guard
therefore always takes the 0.0 branch.  At two locations 5 apart with the
arc 0 to 1 selected, the extracted route 0, 1 is reported with distance 0
while the matrix sum over its consecutive pairs is 5. -/
theorem C4_thm :
    RouteOptimizer.optimize initDistancesAttr locsC4 .optimal yChain1 5 =
      some [⟨[0, 1], 0⟩] ∧
    routeDistSum (calculate_distances locsC4) [0, 1] = 5 := by
  constructor
  · with_unfolding_all rfl
  · have h1 : routeDistSum (calculate_distances locsC4) [0, 1] =
        calculate_distances locsC4 0 1 + 0 := rfl
    rw [h1, add_zero]
    unfold calculate_distances eudist
    rw [if_pos (by norm_num)]
    norm_num [locsC4]
    rw [show ((25 : ℝ)) = 5 ^ 2 by norm_num, Real.sqrt_sq (by norm_num : (0 : ℝ) ≤ 5)]

/-- C8 counterexample: with the non-positive holding cost -2 (and stockout
cost 18) optimize_inventory does not fail: it computes and returns the
policy, whose service level field is the critical ratio 18 / 16 = 1.125,
an impossible fractile above 1. -/
theorem C8_counterexample :
    (optimize_inventory (fun _ => 0) (fun _ => 0) [100] 7 (-2) 18).service_level = 9 / 8 := by
  show (18 : ℝ) / (-2 + 18) = 9 / 8
  norm_num

/-- C8 (amended): optimize_inventory performs no validation of its cost
parameters: for non-positive holding cost the formulas are evaluated
anyway and a policy is returned, rather than an InvalidParameterError
being raised first. -/
theorem C8_thm (ppf pdf : ℝ → ℝ) (hist : List ℝ) (lead_time holding_cost stockout_cost : ℝ)
    (_hh : holding_cost ≤ 0) (_hs : 0 < stockout_cost) :
    (optimize_inventory ppf pdf hist lead_time holding_cost stockout_cost).service_level =
      stockout_cost / (holding_cost + stockout_cost) ∧
    (optimize_inventory ppf pdf hist lead_time holding_cost stockout_cost).safety_stock =
      ppf (stockout_cost / (holding_cost + stockout_cost)) * npStd hist * Real.sqrt lead_time ∧
    (optimize_inventory ppf pdf hist lead_time holding_cost stockout_cost).economic_order_quantity =
      Real.sqrt (2 * (npMean hist * 365) * (stockout_cost * 10) / holding_cost) :=
  ⟨rfl, rfl, rfl⟩

/-- C8 witness: the concrete non-positive holding cost -2. -/
theorem C8_witness :
    ((-2 : ℝ) ≤ 0) ∧ ((0 : ℝ) < 18) ∧
    (optimize_inventory (fun _ => 0) (fun _ => 0) [100] 7 (-2) 18).service_level =
      18 / (-2 + 18) :=
  ⟨by norm_num, by norm_num,
    (C8_thm (fun _ => 0) (fun _ => 0) [100] 7 (-2) 18 (by norm_num) (by norm_num)).1⟩

/-- C7: for every demand history and positive cost parameters the
inventory policy follows the newsvendor formulas (safety stock from the
inverse-CDF z-score, reorder point from mean lead-time demand plus safety
stock, EOQ with the 10-times-stockout order-cost heuristic); in the
concrete scenario with mean 100, std 20, lead time 7, holding cost 2 and
stockout cost 18 the critical ratio is exactly 0.9 and, for any inverse
CDF within 0.001 of the true value 1.2816 at 0.9, the safety stock is
within 0.1 of 67.8 and the reorder point within 0.1 of 767.8. -/
theorem C7_thm (ppf pdf : ℝ → ℝ) (hist : List ℝ)
    (lead_time holding_cost stockout_cost : ℝ)
    (_hh : 0 < holding_cost) (_hs : 0 < stockout_cost) :
    ((optimize_inventory ppf pdf hist lead_time holding_cost stockout_cost).safety_stock =
        ppf (stockout_cost / (holding_cost + stockout_cost)) * npStd hist * Real.sqrt lead_time ∧
     (optimize_inventory ppf pdf hist lead_time holding_cost stockout_cost).reorder_point =
        npMean hist * lead_time +
          (optimize_inventory ppf pdf hist lead_time holding_cost stockout_cost).safety_stock ∧
     (optimize_inventory ppf pdf hist lead_time holding_cost stockout_cost).economic_order_quantity =
        Real.sqrt (2 * (npMean hist * 365) * (10 * stockout_cost) / holding_cost)) ∧
    (npMean hist = 100 → npStd hist = 20 → lead_time = 7 → holding_cost = 2 →
     stockout_cost = 18 → |ppf ((9 : ℝ) / 10) - 1.2816| ≤ 1 / 1000 →
     (optimize_inventory ppf pdf hist lead_time holding_cost stockout_cost).service_level = 9 / 10 ∧
     |(optimize_inventory ppf pdf hist lead_time holding_cost stockout_cost).safety_stock - 67.8| ≤ 1 / 10 ∧
     |(optimize_inventory ppf pdf hist lead_time holding_cost stockout_cost).reorder_point - 767.8| ≤ 1 / 10) := by
  constructor
  · refine ⟨rfl, rfl, ?_⟩
    show Real.sqrt (2 * (npMean hist * 365) * (stockout_cost * 10) / holding_cost) = _
    congr 1
    ring
  · intro hm hstd hlt hh2 hs18 hppf
    subst hlt hh2 hs18
    have hcr : (18 : ℝ) / (2 + 18) = 9 / 10 := by norm_num
    have hss : (optimize_inventory ppf pdf hist 7 2 18).safety_stock =
        ppf ((9 : ℝ) / 10) * 20 * Real.sqrt 7 := by
      show ppf ((18 : ℝ) / (2 + 18)) * npStd hist * Real.sqrt 7 = _
      rw [hstd, hcr]
    have hsq : Real.sqrt 7 ^ 2 = 7 := Real.sq_sqrt (by norm_num)
    have hpos : (0 : ℝ) ≤ Real.sqrt 7 := Real.sqrt_nonneg 7
    have ht1 : Real.sqrt 7 ≤ 2.6458 := by nlinarith [hsq, hpos]
    have ht2 : (2.6457 : ℝ) ≤ Real.sqrt 7 := by nlinarith [hsq, hpos]
    rw [abs_le] at hppf
    have hssb : |(optimize_inventory ppf pdf hist 7 2 18).safety_stock - 67.8| ≤ 1 / 10 := by
      rw [hss, abs_le]
      constructor
      · nlinarith [hppf.1, hppf.2, ht1, ht2]
      · nlinarith [hppf.1, hppf.2, ht1, ht2]
    refine ⟨by show (18 : ℝ) / (2 + 18) = 9 / 10; norm_num, hssb, ?_⟩
    have hrp : (optimize_inventory ppf pdf hist 7 2 18).reorder_point =
        100 * 7 + (optimize_inventory ppf pdf hist 7 2 18).safety_stock := by
      rw [show (optimize_inventory ppf pdf hist 7 2 18).reorder_point =
        npMean hist * 7 + (optimize_inventory ppf pdf hist 7 2 18).safety_stock from rfl, hm]
    rw [hrp, abs_le] at *
    constructor
    · linarith [hssb.1]
    · linarith [hssb.2]

/-- C7 witness: the demand history 80, 120 has mean 100 and population
standard deviation 20; instantiating the inverse CDF with the constant
1.2816 satisfies the accuracy hypothesis exactly. -/
theorem C7_witness :
    (optimize_inventory (fun _ => 1.2816) (fun _ => 0) [80, 120] 7 2 18).service_level = 9 / 10 ∧
    |(optimize_inventory (fun _ => 1.2816) (fun _ => 0) [80, 120] 7 2 18).safety_stock - 67.8| ≤ 1 / 10 ∧
    |(optimize_inventory (fun _ => 1.2816) (fun _ => 0) [80, 120] 7 2 18).reorder_point - 767.8| ≤ 1 / 10 := by
  have hm : npMean [80, 120] = 100 := by
    norm_num [npMean]
  have hstd : npStd [80, 120] = 20 := by
    unfold npStd
    norm_num [npMean]
    rw [show (400 : ℝ) = 20 ^ 2 by norm_num, Real.sqrt_sq (by norm_num : (0 : ℝ) ≤ 20)]
  exact (C7_thm (fun _ => 1.2816) (fun _ => 0) [80, 120] 7 2 18 (by norm_num)
    (by norm_num)).2 hm hstd rfl rfl rfl (by norm_num)

/-- C1 (amended): in every binary feasible solution of the VRP model,
every non-depot location appears in at most one extracted route; it may
appear in none, either because its arcs form a sub-tour disjoint from the
depot (no sub-tour elimination constraints exist) or because its route is
discarded by the length-greater-than-2 filter. -/
theorem C1_thm (y : ℕ → ℕ → ℕ → ℚ) (n K : ℕ) (demands : ℕ → ℚ)
    (dmat : ℕ → ℕ → ℚ) (cap maxd : ℚ)
    (hbin : BinarySolution y n K)
    (hfeas : FeasibleVRP y n K demands dmat cap maxd)
    (j : ℕ) (hj0 : 0 < j) (hjn : j < n) :
    countAppear j (vrp_routes (fun i j' k => some (y i j' k)) n K) ≤ 1 := by
  obtain ⟨hvisit, -, -, -, -⟩ := hfeas
  have hn : 0 < n := by omega
  unfold vrp_routes
  rw [countAppear_filterMap]
  apply list_sum_le_one (List.nodup_range K)
  · intro k hk
    rw [List.mem_range] at hk
    obtain ⟨l, hl, _, hlnd, _, _⟩ :=
      vrp_walk_spec _ n (feasible_indeg hbin hvisit hk) hn
    rw [hl]
    by_cases h2 : 2 < l.length
    · simpa [h2] using List.nodup_iff_count_le_one.mp hlnd j
    · simp [h2]
  · intro a hab b hbb hpa hpb
    rw [List.mem_range] at hab hbb
    obtain ⟨la, hla, _, _, _, _⟩ :=
      vrp_walk_spec _ n (feasible_indeg hbin hvisit hab) hn
    obtain ⟨lb, hlb, _, _, _, _⟩ :=
      vrp_walk_spec _ n (feasible_indeg hbin hvisit hbb) hn
    rw [hla] at hpa
    rw [hlb] at hpb
    by_cases h2a : 2 < la.length
    swap
    · simp [h2a] at hpa
    by_cases h2b : 2 < lb.length
    swap
    · simp [h2b] at hpb
    simp only [Option.some_bind, if_pos h2a, Option.map_some', Option.getD_some] at hpa
    simp only [Option.some_bind, if_pos h2b, Option.map_some', Option.getD_some] at hpb
    have hja : j ∈ la := by
      rw [← List.count_pos_iff]
      exact hpa
    have hjb : j ∈ lb := by
      rw [← List.count_pos_iff]
      exact hpb
    obtain ⟨p, hp, hpj, hp1⟩ := mem_route_has_pred hbin hvisit hab hn hj0 hla hja
    obtain ⟨p', hp', hpj', hp1'⟩ := mem_route_has_pred hbin hvisit hbb hn hj0 hlb hjb
    exact (visit_once_unique hbin hvisit hjn hj0 hp hab hp' hbb hpj hpj' hp1 hp1').2

/-- C1 counterexample: the binary solution in which locations 1 and 2 form
a 2-cycle disjoint from the depot satisfies every constraint of the model
(visit-once, flow conservation, depot degree, capacity, distance), yet the
follow-the-arc extraction yields no routes at all, so location 1 appears
in zero routes rather than exactly one. -/
theorem C1_counterexample :
    BinarySolution ySub 3 1 ∧
    FeasibleVRP ySub 3 1 demandsZero dmatZero 100 1000 ∧
    countAppear 1 (vrp_routes (fun i j k => some (ySub i j k)) 3 1) = 0 :=
  ⟨by with_unfolding_all decide, by with_unfolding_all decide,
    by with_unfolding_all decide⟩

/-- C1 witness: the single tour 0, 1, 2, 0 is feasible and location 1
appears in at most one extracted route. -/
theorem C1_witness :
    BinarySolution yTour 3 1 ∧
    FeasibleVRP yTour 3 1 demandsZero dmatZero 100 1000 ∧
    countAppear 1 (vrp_routes (fun i j k => some (yTour i j k)) 3 1) ≤ 1 :=
  ⟨by with_unfolding_all decide, by with_unfolding_all decide,
    C1_thm yTour 3 1 demandsZero dmatZero 100 1000 (by with_unfolding_all decide)
      (by with_unfolding_all decide) 1 (by norm_num) (by norm_num)⟩

/-- C3 counterexample: on the numeric assignment that selects the arcs
0 to 1, 1 to 2 and 2 to 1 (a mapping the solver interface can report), the
per-vehicle extraction walk of optimize_routes never reaches a node
without a selected outgoing arc and never re-reaches the depot: it runs
out of every amount of fuel, i.e. the Python while-loop runs forever. -/
theorem C3_counterexample : vrpWalkDiverges yCyc 3 0 :=
  yCyc_diverges

/-- C3 (amended): the per-vehicle extraction walk terminates (within
n + 1 steps) for every assignment in which each non-depot location has at
most one selected incoming arc, in particular for every binary feasible
solution; for arbitrary numeric assignments it can run forever, and the
unvisited-set loop of _extract_routes can run forever even on a binary
feasible solution of its own constraints, as the depot-disjoint 2-cycle
solution shows. -/
theorem C3_thm :
    (∀ (v : ℕ → ℕ → Option ℚ) (n : ℕ), InDegLeOne v n →
      (vrp_walk v n (n + 1) 0).isSome = true) ∧
    FeasibleChain ySubChain 3 ∧ chainBinary ySubChain 3 ∧
    chainExtractDiverges (α := ℝ) none ySubChain 3 :=
  ⟨vrp_walk_terminates, by with_unfolding_all decide,
    by with_unfolding_all decide, ySubChain_diverges⟩

/-- C3 witness: the tour solution 0, 1, 2, 0 satisfies the in-degree bound
and its walk terminates. -/
theorem C3_witness :
    InDegLeOne vTour 3 ∧ (vrp_walk vTour 3 (3 + 1) 0).isSome = true :=
  ⟨by with_unfolding_all decide, C3_thm.1 vTour 3 (by with_unfolding_all decide)⟩

/-- C9 counterexample: with two tasks of durations 2 and 1, one resource
and the single window (0, 2), the assignment starting task 0 at slot 0 and
task 1 at slot 1 satisfies every constraint of the scheduling model (the
resource-capacity constraint only restricts how many tasks start per
slot), yet both extracted records occupy the pair (resource 0, slot 1)
under the duration-based occupancy notion. -/
theorem C9_counterexample :
    BinarySched zC9 2 1 (n_time_slots windowsC9) ∧
    FeasibleSchedule zC9 2 1 windowsC9 ∧
    extract_schedule tasksC9 resourcesC9 (n_time_slots windowsC9)
      (fun i j t => some (zC9 i j t)) =
      [⟨0, 0, 0, 2⟩, ⟨1, 0, 1, 1⟩] ∧
    occupies ⟨0, 0, 0, 2⟩ 1 ∧ occupies ⟨1, 0, 1, 1⟩ 1 :=
  ⟨by with_unfolding_all decide, by with_unfolding_all decide,
    by with_unfolding_all decide, by with_unfolding_all decide,
    by with_unfolding_all decide⟩

/-- C9 (amended): in every binary feasible schedule, no two tasks START at
the same (resource, time-slot) pair; the constraints do not account for
task durations, so occupancy overlap in later slots is not excluded. -/
theorem C9_thm (z : ℕ → ℕ → ℕ → ℚ) (nT nR : ℕ) (tws : List (ℕ × ℕ))
    (hbin : BinarySched z nT nR (n_time_slots tws))
    (hfeas : FeasibleSchedule z nT nR tws)
    (i i' j t : ℕ) (hi : i < nT) (hi' : i' < nT) (hj : j < nR)
    (ht : t < n_time_slots tws)
    (h1 : z i j t = 1) (h2 : z i' j t = 1) : i = i' := by
  by_contra hii
  have hcap := hfeas.2.1 j (Finset.mem_range.mpr hj) t (Finset.mem_range.mpr ht)
  have hnn : ∀ x ∈ Finset.range nT, 0 ≤ z x j t := by
    intro x hx
    rcases hbin x hx j (Finset.mem_range.mpr hj) t (Finset.mem_range.mpr ht) with h | h <;>
      simp [h]
  have hpair := qsum_pair_le (f := fun x => z x j t) hii
    (Finset.mem_range.mpr hi) (Finset.mem_range.mpr hi') hnn
  simp only at hpair
  rw [h1, h2] at hpair
  linarith

/-- C9 witness: the concrete feasible schedule instance, applied to the
pair of identical indices. -/
theorem C9_witness :
    BinarySched zC9 2 1 (n_time_slots windowsC9) ∧
    FeasibleSchedule zC9 2 1 windowsC9 ∧ (0 : ℕ) = 0 :=
  ⟨by with_unfolding_all decide, by with_unfolding_all decide,
    C9_thm zC9 2 1 windowsC9 (by with_unfolding_all decide)
      (by with_unfolding_all decide) 0 0 0 0 (by norm_num) (by norm_num)
      (by norm_num) (by with_unfolding_all decide)
      (by with_unfolding_all decide) (by with_unfolding_all decide)⟩

end Claims
